import Mathlib

/-!
Verification of the rulesets client (`rulesets.go`).

The file shallowly embeds the client: the data model (`Ruleset`,
`RulesetRule`, `RulesetRuleActionParameters`, …) with the JSON
encoders/decoders induced by the Go struct tags, and the five operations
(list / get / create / update / delete), each parameterized by scope
(zone or account) and by the injected request executor.

Modelling conventions, fixed once here:
* Go byte strings are `String`; Go `int` is `Int` (the JSON numbers the
  client handles are integral); `time.Time` is represented opaquely by its
  serialized RFC3339 text (`GoTime`), since the client never computes with
  times, only round-trips them.
* A Go slice `[]T` is `Option (List T)`: `none` is the nil slice, which
  `encoding/json` renders as `null` and which `omitempty` elides, and
  `some xs` a non-nil slice.  A Go map is `Option` of an entry list;
  an entry list denotes the map built by inserting its entries left to
  right, and `encoding/json` emits map keys in sorted order, so the
  canonical representative of a map is its key-sorted entry list.
* A Go `(value, error)` return is the pair `α × Option GoError`;
  `errors.New` is `GoError.base`, `errors.Wrap` is `GoError.wrap`, and an
  error produced by `encoding/json` is `GoError.decode`.
* `json.Unmarshal` is modelled in two stages, as in the standard library:
  a response body (`HTTPResponse`) carries its raw text together with its
  parse as a JSON value (`none` when the text is not well-formed JSON),
  and the typed decoders below map a JSON value onto the Go structs
  following the struct tags: a missing key leaves the field at its zero
  value, an unknown key is ignored, JSON `null` leaves the target at its
  zero value, and a value of the wrong shape is an unmarshal type error.
-/

/-- A JSON value, as produced and consumed on the wire. -/
inductive Json where
  | null
  | bool (b : Bool)
  | num (n : Int)
  | str (s : String)
  | arr (elems : List Json)
  | obj (fields : List (String × Json))
deriving Repr, BEq, Inhabited

/-- Key lookup in a JSON object's field list (first occurrence). -/
def jLookup (fields : List (String × Json)) (k : String) : Option Json :=
  match fields with
  | [] => none
  | (k₁, v) :: rest => if k₁ = k then some v else jLookup rest k

/-- The key list of a JSON object (and `[]` on any other value). -/
def Json.objKeys : Json → List String
  | .obj fields => fields.map (fun f => f.1)
  | _ => []

/-- `time.Time`, represented opaquely by its RFC3339 serialization. -/
structure GoTime where
  rfc3339 : String
deriving Repr, DecidableEq, Inhabited

/-- `RulesetRuleActionParametersURIPath` (rulesets.go:100). -/
structure RulesetRuleActionParametersURIPath where
  Expression : String := ""
deriving Repr, DecidableEq, Inhabited

/-- `RulesetRuleActionParametersURIQuery` (rulesets.go:106). -/
structure RulesetRuleActionParametersURIQuery where
  Value : String := ""
  Expression : String := ""
deriving Repr, DecidableEq, Inhabited

/-- `RulesetRuleActionParametersURI` (rulesets.go:92). -/
structure RulesetRuleActionParametersURI where
  Path : RulesetRuleActionParametersURIPath := {}
  Query : RulesetRuleActionParametersURIQuery := {}
  Origin : Bool := false
deriving Repr, DecidableEq, Inhabited

/-- `RulesetRuleActionParametersHTTPHeader` (rulesets.go:113). -/
structure RulesetRuleActionParametersHTTPHeader where
  Operation : String := ""
  Value : String := ""
  Expression : String := ""
deriving Repr, DecidableEq, Inhabited

/-- `RulesetRuleActionParameters` (rulesets.go:82).  `Headers` is a Go map
from header name to header spec, `Products` a slice of product tags. -/
structure RulesetRuleActionParameters where
  ID : String := ""
  Ruleset : String := ""
  Increment : Int := 0
  URI : RulesetRuleActionParametersURI := {}
  Headers : Option (List (String × RulesetRuleActionParametersHTTPHeader)) := none
  Products : Option (List String) := none
deriving Repr, DecidableEq, Inhabited

/-- `RulesetRule` (rulesets.go:120).  `ActionParameters` is a Go pointer
field, hence `Option`. -/
structure RulesetRule where
  ID : String := ""
  Version : String := ""
  Action : String := ""
  ActionParameters : Option RulesetRuleActionParameters := none
  Expression : String := ""
  Description : String := ""
  LastUpdated : Option GoTime := none
  Ref : String := ""
  Enabled : Bool := false
  Categories : Option (List String) := none
  ScoreThreshold : Int := 0
deriving Repr, DecidableEq, Inhabited

/-- `Ruleset` (rulesets.go:69). -/
structure Ruleset where
  ID : String := ""
  Name : String := ""
  Description : String := ""
  Kind : String := ""
  Version : String := ""
  LastUpdated : Option GoTime := none
  Phase : String := ""
  Rules : Option (List RulesetRule) := none
deriving Repr, DecidableEq, Inhabited

/-- `UpdateRulesetRequest` (rulesets.go:135): the restricted update payload. -/
structure UpdateRulesetRequest where
  Description : String := ""
  Rules : Option (List RulesetRule) := none
deriving Repr, DecidableEq, Inhabited

/-! ### Encoders (Go `json.Marshal` on the tagged structs)

Each encoder lists the fields in struct order, eliding `omitempty` fields
at their zero value, exactly as `encoding/json` does.  `omitempty` on a
struct-typed field (the `uri`, `path`, `query` tags) has no effect in Go,
so those fields are always emitted. -/

/-- An `omitempty` string field: elided when empty. -/
def omitStr (k s : String) : List (String × Json) :=
  if s = "" then [] else [(k, .str s)]

/-- An `omitempty` int field: elided when zero. -/
def omitInt (k : String) (n : Int) : List (String × Json) :=
  if n = 0 then [] else [(k, .num n)]

/-- An `omitempty` bool field: elided when false. -/
def omitBool (k : String) (b : Bool) : List (String × Json) :=
  if b then [(k, .bool b)] else []

/-- An `omitempty` pointer-to-time field: elided when nil, RFC3339 text
otherwise. -/
def omitTime (k : String) : Option GoTime → List (String × Json)
  | none => []
  | some t => [(k, .str t.rfc3339)]

/-- An `omitempty` slice field: elided when nil or empty. -/
def omitSlice (k : String) (enc : α → Json) : Option (List α) → List (String × Json)
  | none => []
  | some [] => []
  | some xs => [(k, .arr (xs.map enc))]

/-- A slice field without `omitempty`: `null` when nil. -/
def sliceField (k : String) (enc : α → Json) : Option (List α) → List (String × Json)
  | none => [(k, .null)]
  | some xs => [(k, .arr (xs.map enc))]

/-- Lexicographic strict order on character lists (by code point). -/
def charListLt : List Char → List Char → Bool
  | [], [] => false
  | [], _ :: _ => true
  | _ :: _, [] => false
  | a :: as, b :: bs =>
    if a.toNat < b.toNat then true
    else if b.toNat < a.toNat then false
    else charListLt as bs

/-- Strict order on strings, as used to sort map keys. -/
def strLt (a b : String) : Bool := charListLt a.data b.data

/-- Insert an entry into a key-sorted entry list, overwriting an equal key. -/
def insertEntry (p : String × α) : List (String × α) → List (String × α)
  | [] => [p]
  | q :: rest =>
    if strLt p.1 q.1 then p :: q :: rest
    else if p.1 = q.1 then p :: rest
    else q :: insertEntry p rest

/-- The canonical (key-sorted, last-wins) form of a map's entry list: the
Go map built by inserting the entries left to right. -/
def mapCanon (entries : List (String × α)) : List (String × α) :=
  entries.foldl (fun acc p => insertEntry p acc) []

/-- An `omitempty` map field: elided when nil or empty, otherwise emitted
with keys in sorted order as `json.Marshal` does. -/
def omitMap (k : String) (enc : α → Json) : Option (List (String × α)) → List (String × Json)
  | none => []
  | some entries =>
    match mapCanon entries with
    | [] => []
    | c => [(k, .obj (c.map (fun p => (p.1, enc p.2))))]

def RulesetRuleActionParametersURIPath.toJson (p : RulesetRuleActionParametersURIPath) : Json :=
  .obj (omitStr "expression" p.Expression)

def RulesetRuleActionParametersURIQuery.toJson (q : RulesetRuleActionParametersURIQuery) : Json :=
  .obj (omitStr "value" q.Value ++ omitStr "expression" q.Expression)

def RulesetRuleActionParametersURI.toJson (u : RulesetRuleActionParametersURI) : Json :=
  .obj ([("path", u.Path.toJson), ("query", u.Query.toJson)] ++ omitBool "origin" u.Origin)

def RulesetRuleActionParametersHTTPHeader.toJson (h : RulesetRuleActionParametersHTTPHeader) : Json :=
  .obj (omitStr "operation" h.Operation ++ omitStr "value" h.Value ++
    omitStr "expression" h.Expression)

def RulesetRuleActionParameters.toJson (p : RulesetRuleActionParameters) : Json :=
  .obj (omitStr "id" p.ID ++ omitStr "ruleset" p.Ruleset ++ omitInt "increment" p.Increment ++
    [("uri", p.URI.toJson)] ++
    omitMap "headers" RulesetRuleActionParametersHTTPHeader.toJson p.Headers ++
    omitSlice "products" Json.str p.Products)

/-- An `omitempty` pointer-to-ActionParameters field. -/
def omitActionParameters (k : String) : Option RulesetRuleActionParameters → List (String × Json)
  | none => []
  | some p => [(k, p.toJson)]

def RulesetRule.toJson (r : RulesetRule) : Json :=
  .obj (omitStr "id" r.ID ++ omitStr "version" r.Version ++ [("action", .str r.Action)] ++
    omitActionParameters "action_parameters" r.ActionParameters ++
    [("expression", .str r.Expression), ("description", .str r.Description)] ++
    omitTime "last_updated" r.LastUpdated ++ omitStr "ref" r.Ref ++
    [("enabled", .bool r.Enabled)] ++
    omitSlice "categories" Json.str r.Categories ++
    omitInt "score_threshold" r.ScoreThreshold)

def Ruleset.toJson (r : Ruleset) : Json :=
  .obj (omitStr "id" r.ID ++
    [("name", .str r.Name), ("description", .str r.Description), ("kind", .str r.Kind)] ++
    omitStr "version" r.Version ++ omitTime "last_updated" r.LastUpdated ++
    [("phase", .str r.Phase)] ++
    sliceField "rules" RulesetRule.toJson r.Rules)

def UpdateRulesetRequest.toJson (u : UpdateRulesetRequest) : Json :=
  .obj ([("description", .str u.Description)] ++
    sliceField "rules" RulesetRule.toJson u.Rules)

/-! ### Decoders (Go `json.Unmarshal` on the tagged structs) -/

/-- An `encoding/json` decode failure: the body is not well-formed JSON
(`SyntaxError`), or a value has the wrong shape for its target
(`UnmarshalTypeError`). -/
inductive DecodeErr where
  | malformed
  | typeMismatch (expected : String)
deriving Repr, DecidableEq, Inhabited

/-- Decode into a string field: `null` keeps the zero value. -/
def decStr : Json → Except DecodeErr String
  | .null => .ok ""
  | .str s => .ok s
  | _ => .error (.typeMismatch "string")

/-- Decode into an int field. -/
def decInt : Json → Except DecodeErr Int
  | .null => .ok 0
  | .num n => .ok n
  | _ => .error (.typeMismatch "int")

/-- Decode into a bool field. -/
def decBool : Json → Except DecodeErr Bool
  | .null => .ok false
  | .bool b => .ok b
  | _ => .error (.typeMismatch "bool")

/-- Decode into a `*time.Time` field: `null` is the nil pointer. -/
def decTimePtr : Json → Except DecodeErr (Option GoTime)
  | .null => .ok none
  | .str s => .ok (some ⟨s⟩)
  | _ => .error (.typeMismatch "time")

/-- Decode one struct field: a missing key leaves the zero value `z`. -/
def decField (fields : List (String × Json)) (k : String) (z : α)
    (dec : Json → Except DecodeErr α) : Except DecodeErr α :=
  match jLookup fields k with
  | none => .ok z
  | some v => dec v

/-- Decode a JSON array elementwise, stopping at the first failure. -/
def decList (dec : Json → Except DecodeErr α) : List Json → Except DecodeErr (List α)
  | [] => .ok []
  | v :: rest =>
    match dec v with
    | .error e => .error e
    | .ok x =>
      match decList dec rest with
      | .error e => .error e
      | .ok xs => .ok (x :: xs)

/-- Decode into a slice field: `null` is the nil slice. -/
def decSlice (dec : Json → Except DecodeErr α) : Json → Except DecodeErr (Option (List α))
  | .null => .ok none
  | .arr xs =>
    match decList dec xs with
    | .error e => .error e
    | .ok ys => .ok (some ys)
  | _ => .error (.typeMismatch "array")

/-- Decode the entries of a JSON object valuewise, in order. -/
def decEntries (dec : Json → Except DecodeErr α) :
    List (String × Json) → Except DecodeErr (List (String × α))
  | [] => .ok []
  | (k, v) :: rest =>
    match dec v with
    | .error e => .error e
    | .ok x =>
      match decEntries dec rest with
      | .error e => .error e
      | .ok xs => .ok ((k, x) :: xs)

/-- Decode into a map field: `null` is the nil map; entries are inserted in
order of appearance, so the result is in canonical form. -/
def decMap (dec : Json → Except DecodeErr α) :
    Json → Except DecodeErr (Option (List (String × α)))
  | .null => .ok none
  | .obj fs =>
    match decEntries dec fs with
    | .error e => .error e
    | .ok es => .ok (some (mapCanon es))
  | _ => .error (.typeMismatch "map")

def RulesetRuleActionParametersURIPath.fromJson :
    Json → Except DecodeErr RulesetRuleActionParametersURIPath
  | .null => .ok {}
  | .obj fs => do
    let e ← decField fs "expression" "" decStr
    return { Expression := e }
  | _ => .error (.typeMismatch "object")

def RulesetRuleActionParametersURIQuery.fromJson :
    Json → Except DecodeErr RulesetRuleActionParametersURIQuery
  | .null => .ok {}
  | .obj fs => do
    let v ← decField fs "value" "" decStr
    let e ← decField fs "expression" "" decStr
    return { Value := v, Expression := e }
  | _ => .error (.typeMismatch "object")

def RulesetRuleActionParametersURI.fromJson :
    Json → Except DecodeErr RulesetRuleActionParametersURI
  | .null => .ok {}
  | .obj fs => do
    let p ← decField fs "path" {} RulesetRuleActionParametersURIPath.fromJson
    let q ← decField fs "query" {} RulesetRuleActionParametersURIQuery.fromJson
    let o ← decField fs "origin" false decBool
    return { Path := p, Query := q, Origin := o }
  | _ => .error (.typeMismatch "object")

def RulesetRuleActionParametersHTTPHeader.fromJson :
    Json → Except DecodeErr RulesetRuleActionParametersHTTPHeader
  | .null => .ok {}
  | .obj fs => do
    let o ← decField fs "operation" "" decStr
    let v ← decField fs "value" "" decStr
    let e ← decField fs "expression" "" decStr
    return { Operation := o, Value := v, Expression := e }
  | _ => .error (.typeMismatch "object")

def RulesetRuleActionParameters.fromJson :
    Json → Except DecodeErr RulesetRuleActionParameters
  | .null => .ok {}
  | .obj fs => do
    let i ← decField fs "id" "" decStr
    let rs ← decField fs "ruleset" "" decStr
    let inc ← decField fs "increment" 0 decInt
    let u ← decField fs "uri" {} RulesetRuleActionParametersURI.fromJson
    let h ← decField fs "headers" none (decMap RulesetRuleActionParametersHTTPHeader.fromJson)
    let pr ← decField fs "products" none (decSlice decStr)
    return { ID := i, Ruleset := rs, Increment := inc, URI := u, Headers := h, Products := pr }
  | _ => .error (.typeMismatch "object")

/-- Decode into the `*RulesetRuleActionParameters` pointer field: `null` is
the nil pointer, anything else is decoded into a fresh value. -/
def decActionParametersPtr : Json → Except DecodeErr (Option RulesetRuleActionParameters)
  | .null => .ok none
  | j =>
    match RulesetRuleActionParameters.fromJson j with
    | .error e => .error e
    | .ok p => .ok (some p)

def RulesetRule.fromJson : Json → Except DecodeErr RulesetRule
  | .null => .ok {}
  | .obj fs => do
    let i ← decField fs "id" "" decStr
    let ver ← decField fs "version" "" decStr
    let act ← decField fs "action" "" decStr
    let ap ← decField fs "action_parameters" none decActionParametersPtr
    let ex ← decField fs "expression" "" decStr
    let d ← decField fs "description" "" decStr
    let lu ← decField fs "last_updated" none decTimePtr
    let rf ← decField fs "ref" "" decStr
    let en ← decField fs "enabled" false decBool
    let cat ← decField fs "categories" none (decSlice decStr)
    let st ← decField fs "score_threshold" 0 decInt
    return { ID := i, Version := ver, Action := act, ActionParameters := ap, Expression := ex,
             Description := d, LastUpdated := lu, Ref := rf, Enabled := en, Categories := cat,
             ScoreThreshold := st }
  | _ => .error (.typeMismatch "object")

def Ruleset.fromJson : Json → Except DecodeErr Ruleset
  | .null => .ok {}
  | .obj fs => do
    let i ← decField fs "id" "" decStr
    let n ← decField fs "name" "" decStr
    let d ← decField fs "description" "" decStr
    let k ← decField fs "kind" "" decStr
    let v ← decField fs "version" "" decStr
    let lu ← decField fs "last_updated" none decTimePtr
    let ph ← decField fs "phase" "" decStr
    let rls ← decField fs "rules" none (decSlice RulesetRule.fromJson)
    return { ID := i, Name := n, Description := d, Kind := k, Version := v, LastUpdated := lu,
             Phase := ph, Rules := rls }
  | _ => .error (.typeMismatch "object")

/-- `ListRulesetResponse` (rulesets.go:141), decoded from a response body.
Modelled from the spec: the envelope shape is
`{ ...commonResponseFields, result: [Ruleset] }`; the embedded common
response fields (`Response`, not among the sources) are not inspected by
the client, so decoding extracts only the `result` field. -/
def decodeListRulesetResponse : Json → Except DecodeErr (Option (List Ruleset))
  | .null => .ok none
  | .obj fs => decField fs "result" none (decSlice Ruleset.fromJson)
  | _ => .error (.typeMismatch "object")

/-- `GetRulesetResponse` (rulesets.go:147), decoded from a response body.
Modelled from the spec: envelope `{ ...commonResponseFields, result: Ruleset }`. -/
def decodeGetRulesetResponse : Json → Except DecodeErr Ruleset
  | .null => .ok {}
  | .obj fs => decField fs "result" {} Ruleset.fromJson
  | _ => .error (.typeMismatch "object")

/-- `CreateRulesetResponse` (rulesets.go:153), decoded from a response body. -/
def decodeCreateRulesetResponse : Json → Except DecodeErr Ruleset
  | .null => .ok {}
  | .obj fs => decField fs "result" {} Ruleset.fromJson
  | _ => .error (.typeMismatch "object")

/-- `UpdateRulesetResponse` (rulesets.go:160), decoded from a response body. -/
def decodeUpdateRulesetResponse : Json → Except DecodeErr Ruleset
  | .null => .ok {}
  | .obj fs => decField fs "result" {} Ruleset.fromJson
  | _ => .error (.typeMismatch "object")

/-! ### The client operations (rulesets.go:165-320) -/

/-- An HTTP method, as passed to the request executor. -/
inductive Method where
  | get
  | post
  | put
  | delete
deriving Repr, DecidableEq, Inhabited

/-- Modelled from the spec: the owner-scope discriminator `RouteRoot`
(declared outside the sources).  The spec fixes its two values and their
path segments, "zones" and "accounts". -/
inductive RouteRoot where
  | zones
  | accounts
deriving Repr, DecidableEq, Inhabited

/-- The path segment of an owner scope. -/
def RouteRoot.segment : RouteRoot → String
  | .zones => "zones"
  | .accounts => "accounts"

/-- Modelled from the spec: `ZoneRouteRoot`, the zone owner scope. -/
def ZoneRouteRoot : RouteRoot := .zones

/-- Modelled from the spec: `AccountRouteRoot`, the account owner scope. -/
def AccountRouteRoot : RouteRoot := .accounts

/-- A Go `error` value as this client builds and passes them:
`base` is a primitive error (`errors.New`, or whatever the executor
returns), `decode` an `encoding/json` error, `wrap` is `errors.Wrap`. -/
inductive GoError where
  | base (msg : String)
  | decode (e : DecodeErr)
  | wrap (cause : GoError) (msg : String)
deriving Repr, DecidableEq, Inhabited

/-- Modelled from the spec: the distinguishing unmarshal marker
(`errUnmarshalError`, declared outside the sources) that wraps
payload-shape failures. -/
def errUnmarshalError : String := "error unmarshalling the JSON response"

/-- Modelled from the spec: the request-error marker (`errMakeRequestError`,
declared outside the sources) that wraps the unexpected-body error of
delete. -/
def errMakeRequestError : String := "error from makeRequest"

/-- A response body: its raw text together with its parse as a JSON value
(`none` when the text is not well-formed JSON). -/
structure HTTPResponse where
  text : String
  json : Option Json
deriving Repr, Inhabited

/-- Modelled from the spec: the injected request executor capability,
`execute(context, method, path, optionalBody) -> (responseBytes, error)`
(`makeRequestContext`, declared outside the sources).  The optional request
body is passed in its JSON-encoded form; the caller's context is threaded
through unchanged by the client and therefore omitted here. -/
abbrev Executor := Method → String → Option Json → Except GoError HTTPResponse

/-- `json.Unmarshal(res, &target)`: fails when the body is not well-formed
JSON, otherwise runs the typed decoder for the target. -/
def jsonUnmarshal (dec : Json → Except DecodeErr α) (res : HTTPResponse) :
    Except GoError α :=
  match res.json with
  | none => .error (.decode .malformed)
  | some j =>
    match dec j with
    | .error e => .error (.decode e)
    | .ok v => .ok v

/-- `fmt.Sprintf("/%s/%s/rulesets", identifierType, identifier)`
(rulesets.go:182, rulesets.go:243). -/
def rulesetsURI (identifierType : RouteRoot) (identifier : String) : String :=
  "/" ++ identifierType.segment ++ "/" ++ identifier ++ "/rulesets"

/-- `fmt.Sprintf("/%s/%s/rulesets/%s", identifierType, identifier, rulesetID)`
(rulesets.go:214, rulesets.go:274, rulesets.go:307). -/
def rulesetURI (identifierType : RouteRoot) (identifier rulesetID : String) : String :=
  "/" ++ identifierType.segment ++ "/" ++ identifier ++ "/rulesets/" ++ rulesetID

/-- `listRulesets` (rulesets.go:181). -/
def listRulesets (exec : Executor) (identifierType : RouteRoot) (identifier : String) :
    Option (List Ruleset) × Option GoError :=
  let uri := rulesetsURI identifierType identifier
  match exec .get uri none with
  | .error err => (some [], some err)
  | .ok res =>
    match jsonUnmarshal decodeListRulesetResponse res with
    | .error err => (some [], some (.wrap err errUnmarshalError))
    | .ok result => (result, none)

/-- `getRuleset` (rulesets.go:213). -/
def getRuleset (exec : Executor) (identifierType : RouteRoot) (identifier rulesetID : String) :
    Ruleset × Option GoError :=
  let uri := rulesetURI identifierType identifier rulesetID
  match exec .get uri none with
  | .error err => ({}, some err)
  | .ok res =>
    match jsonUnmarshal decodeGetRulesetResponse res with
    | .error err => ({}, some (.wrap err errUnmarshalError))
    | .ok result => (result, none)

/-- `createRuleset` (rulesets.go:242); the request body is the JSON
encoding of the given ruleset. -/
def createRuleset (exec : Executor) (identifierType : RouteRoot) (identifier : String)
    (ruleset : Ruleset) : Ruleset × Option GoError :=
  let uri := rulesetsURI identifierType identifier
  match exec .post uri (some ruleset.toJson) with
  | .error err => ({}, some err)
  | .ok res =>
    match jsonUnmarshal decodeCreateRulesetResponse res with
    | .error err => ({}, some (.wrap err errUnmarshalError))
    | .ok result => (result, none)

/-- `deleteRuleset` (rulesets.go:273): a non-empty body on a successful
call is itself an error, carrying the body text. -/
def deleteRuleset (exec : Executor) (identifierType : RouteRoot)
    (identifier rulesetID : String) : Option GoError :=
  let uri := rulesetURI identifierType identifier rulesetID
  match exec .delete uri none with
  | .error err => some err
  | .ok res =>
    if res.text.length > 0 then
      some (.wrap (.base res.text) errMakeRequestError)
    else
      none

/-- `updateRuleset` (rulesets.go:306); the request body is the JSON
encoding of the restricted `UpdateRulesetRequest` payload. -/
def updateRuleset (exec : Executor) (identifierType : RouteRoot)
    (identifier rulesetID description : String) (rules : Option (List RulesetRule)) :
    Ruleset × Option GoError :=
  let uri := rulesetURI identifierType identifier rulesetID
  let payload : UpdateRulesetRequest := { Description := description, Rules := rules }
  match exec .put uri (some payload.toJson) with
  | .error err => ({}, some err)
  | .ok res =>
    match jsonUnmarshal decodeUpdateRulesetResponse res with
    | .error err => ({}, some (.wrap err errUnmarshalError))
    | .ok result => (result, none)

/-- `ListZoneRulesets` (rulesets.go:168). -/
def ListZoneRulesets (exec : Executor) (zoneID : String) :
    Option (List Ruleset) × Option GoError :=
  listRulesets exec ZoneRouteRoot zoneID

/-- `ListAccountRulesets` (rulesets.go:175). -/
def ListAccountRulesets (exec : Executor) (accountID : String) :
    Option (List Ruleset) × Option GoError :=
  listRulesets exec AccountRouteRoot accountID

/-- `GetZoneRuleset` (rulesets.go:200). -/
def GetZoneRuleset (exec : Executor) (zoneID rulesetID : String) :
    Ruleset × Option GoError :=
  getRuleset exec ZoneRouteRoot zoneID rulesetID

/-- `GetAccountRuleset` (rulesets.go:207). -/
def GetAccountRuleset (exec : Executor) (accountID rulesetID : String) :
    Ruleset × Option GoError :=
  getRuleset exec AccountRouteRoot accountID rulesetID

/-- `CreateZoneRuleset` (rulesets.go:231). -/
def CreateZoneRuleset (exec : Executor) (zoneID : String) (ruleset : Ruleset) :
    Ruleset × Option GoError :=
  createRuleset exec ZoneRouteRoot zoneID ruleset

/-- `CreateAccountRuleset` (rulesets.go:238). -/
def CreateAccountRuleset (exec : Executor) (accountID : String) (ruleset : Ruleset) :
    Ruleset × Option GoError :=
  createRuleset exec AccountRouteRoot accountID ruleset

/-- `DeleteZoneRuleset` (rulesets.go:261). -/
def DeleteZoneRuleset (exec : Executor) (zoneID rulesetID : String) : Option GoError :=
  deleteRuleset exec ZoneRouteRoot zoneID rulesetID

/-- `DeleteAccountRuleset` (rulesets.go:268). -/
def DeleteAccountRuleset (exec : Executor) (accountID rulesetID : String) : Option GoError :=
  deleteRuleset exec AccountRouteRoot accountID rulesetID

/-- `UpdateZoneRuleset` (rulesets.go:294). -/
def UpdateZoneRuleset (exec : Executor) (zoneID rulesetID description : String)
    (rules : Option (List RulesetRule)) : Ruleset × Option GoError :=
  updateRuleset exec ZoneRouteRoot zoneID rulesetID description rules

/-- `UpdateAccountRuleset` (rulesets.go:301). -/
def UpdateAccountRuleset (exec : Executor) (accountID rulesetID description : String)
    (rules : Option (List RulesetRule)) : Ruleset × Option GoError :=
  updateRuleset exec AccountRouteRoot accountID rulesetID description rules

/-! ### Canonical wire form

A Lean value of the model is in canonical form when it is the chosen
representative of its Go value: a present-but-empty `omitempty` collection
does not occur (Go elides it, so it is indistinguishable on the wire from
an absent one only in one direction: it decodes back as nil), and a map's
entry list is strictly key-sorted (a Go map is unordered, so its canonical
representative is the sorted entry list `json.Marshal` would emit). -/

/-- The entry list is strictly sorted by key. -/
def sortedKeys : List (String × α) → Bool
  | [] => true
  | [_] => true
  | p :: q :: rest => strLt p.1 q.1 && sortedKeys (q :: rest)

/-- Canonical form of action parameters: `Headers` and `Products` are
absent or non-empty, and `Headers` is strictly key-sorted. -/
def RulesetRuleActionParameters.canonical (p : RulesetRuleActionParameters) : Bool :=
  (match p.Headers with
   | none => true
   | some es => !es.isEmpty && sortedKeys es) &&
  (match p.Products with
   | none => true
   | some xs => !xs.isEmpty)

/-- Canonical form of a rule: `Categories` is absent or non-empty, and the
action parameters, when present, are canonical. -/
def RulesetRule.canonical (r : RulesetRule) : Bool :=
  (match r.ActionParameters with
   | none => true
   | some p => p.canonical) &&
  (match r.Categories with
   | none => true
   | some xs => !xs.isEmpty)

/-- Canonical form of a ruleset: every rule is canonical. -/
def Ruleset.canonical (r : Ruleset) : Bool :=
  match r.Rules with
  | none => true
  | some rs => rs.all RulesetRule.canonical

/-- An executor answering every request with the same fixed outcome:
the concrete transports used to instantiate the theorems below. -/
def constExec (out : Except GoError HTTPResponse) : Executor := fun _ _ _ => out

/-- A ruleset that is not in canonical wire form: its rule carries a
present-but-empty `Categories` slice, which `omitempty` elides on encode
and which therefore decodes back as an absent one. -/
def emptyCategoriesRuleset : Ruleset :=
  { Name := "n", Rules := some [{ Action := "block", Categories := some ([] : List String) }] }

/-- A concrete canonical ruleset exercising every optional field: used to
instantiate the round-trip theorem. -/
def sampleRuleset : Ruleset :=
  { ID := "2f2feab2026849078ba485f918791bdc",
    Name := "block-bad-bots",
    Description := "reject bad bots",
    Kind := "custom",
    Version := "2",
    LastUpdated := some ⟨"2021-03-18T20:24:02.591158Z"⟩,
    Phase := "http_request_firewall_custom",
    Rules := some
      [{ ID := "62449e2e0de149619edb35e59670f6e9",
         Version := "1",
         Action := "skip",
         ActionParameters := some
           { ID := "4814384a9e5d4991b9815dcfc25d2f1f",
             Ruleset := "targetrs",
             Increment := 3,
             URI := { Path := { Expression := "regex_replace(http.request.uri.path)" },
                      Query := { Value := "a=b" },
                      Origin := true },
             Headers := some
               [("x-one", { Operation := "set", Value := "1" }),
                ("x-two", { Operation := "remove" })],
             Products := some ["waf", "zonelockdown"] },
         Expression := "(http.user_agent contains \"bot\")",
         Description := "skip rule",
         LastUpdated := some ⟨"2021-03-18T20:24:02.591158Z"⟩,
         Ref := "ref1",
         Enabled := true,
         Categories := some ["wordpress"],
         ScoreThreshold := 60 },
       { Action := "block",
         Expression := "ip.src ne 1.1.1.1",
         Enabled := false }] }

/-! ### Groundwork lemmas -/

theorem okBind (a : α) (f : α → Except ε β) : (Except.ok a : Except ε α) >>= f = f a := rfl

theorem charListLt_irrefl : ∀ as, charListLt as as = false
  | [] => rfl
  | _ :: as => by simp [charListLt, charListLt_irrefl as]

theorem charListLt_trans :
    ∀ as bs cs, charListLt as bs = true → charListLt bs cs = true → charListLt as cs = true
  | [], [], _, h1, _ => by simp [charListLt] at h1
  | [], _ :: _, [], _, h2 => by simp [charListLt] at h2
  | [], _ :: _, _ :: _, _, _ => by simp [charListLt]
  | _ :: _, [], _, h1, _ => by simp [charListLt] at h1
  | _ :: _, _ :: _, [], _, h2 => by simp [charListLt] at h2
  | a :: as, b :: bs, c :: cs, h1, h2 => by
    simp only [charListLt] at h1 h2 ⊢
    split_ifs at h1 h2 ⊢ <;>
      first
        | rfl
        | omega
        | assumption
        | exact charListLt_trans as bs cs h1 h2

theorem strLt_trans {a b c : String} (h1 : strLt a b = true) (h2 : strLt b c = true) :
    strLt a c = true :=
  charListLt_trans a.data b.data c.data h1 h2

theorem strLt_ne {a b : String} (h : strLt a b = true) : a ≠ b := by
  intro hab
  subst hab
  rw [strLt, charListLt_irrefl] at h
  exact Bool.false_ne_true h

theorem strLt_asymm {a b : String} (h : strLt a b = true) : strLt b a = false := by
  by_contra hba
  have hba' : strLt b a = true := by
    cases hb : strLt b a
    · exact absurd hb hba
    · rfl
  exact absurd rfl (strLt_ne (strLt_trans h hba'))

theorem sortedKeys_cons {α : Type _} {p q : String × α} {rest : List (String × α)}
    (h : sortedKeys (p :: q :: rest) = true) :
    strLt p.1 q.1 = true ∧ sortedKeys (q :: rest) = true := by
  simpa [sortedKeys, Bool.and_eq_true] using h

theorem sortedKeys_tail {α : Type _} {p : String × α} {rest : List (String × α)}
    (h : sortedKeys (p :: rest) = true) : sortedKeys rest = true := by
  cases rest with
  | nil => rfl
  | cons q rest => exact (sortedKeys_cons h).2

theorem sortedKeys_head_lt {α : Type _} :
    ∀ (p : String × α) (rest : List (String × α)), sortedKeys (p :: rest) = true →
      ∀ q ∈ rest, strLt p.1 q.1 = true
  | _, [], _, q, hq => absurd hq (List.not_mem_nil q)
  | p, r :: rest, h, q, hq => by
    obtain ⟨hpr, hrest⟩ := sortedKeys_cons h
    rcases List.mem_cons.mp hq with hq | hq
    · rw [hq]; exact hpr
    · exact strLt_trans hpr (sortedKeys_head_lt r rest hrest q hq)

theorem insertEntry_of_gt {α : Type _} (p : String × α) :
    ∀ (acc : List (String × α)), (∀ q ∈ acc, strLt q.1 p.1 = true) →
      insertEntry p acc = acc ++ [p]
  | [], _ => rfl
  | q :: rest, h => by
    have hqp : strLt q.1 p.1 = true := h q (List.mem_cons_self q rest)
    have h1 : strLt p.1 q.1 = false := strLt_asymm hqp
    have h2 : p.1 ≠ q.1 := fun hpq => strLt_ne hqp hpq.symm
    simp only [insertEntry, h1, if_neg h2, Bool.false_eq_true, if_false, List.cons_append,
      List.cons.injEq, true_and]
    exact insertEntry_of_gt p rest (fun q hq => h q (List.mem_cons_of_mem _ hq))

theorem foldl_insertEntry_sorted {α : Type _} :
    ∀ (es acc : List (String × α)), sortedKeys es = true →
      (∀ q ∈ acc, ∀ p ∈ es, strLt q.1 p.1 = true) →
      List.foldl (fun acc p => insertEntry p acc) acc es = acc ++ es
  | [], acc, _, _ => by simp
  | p :: rest, acc, hsort, hlt => by
    have hacc : insertEntry p acc = acc ++ [p] :=
      insertEntry_of_gt p acc (fun q hq => hlt q hq p (List.mem_cons_self p rest))
    have hrec :
        List.foldl (fun acc p => insertEntry p acc) (acc ++ [p]) rest = (acc ++ [p]) ++ rest := by
      refine foldl_insertEntry_sorted rest (acc ++ [p]) (sortedKeys_tail hsort) ?_
      intro q hq x hx
      rcases List.mem_append.mp hq with hq | hq
      · exact hlt q hq x (List.mem_cons_of_mem _ hx)
      · rw [List.mem_singleton.mp hq]
        exact sortedKeys_head_lt p rest hsort x hx
    simp only [List.foldl_cons, hacc, hrec, List.append_assoc, List.singleton_append]

/-- A strictly key-sorted entry list is its own canonical form. -/
theorem mapCanon_sorted {α : Type _} (es : List (String × α)) (h : sortedKeys es = true) :
    mapCanon es = es := by
  simpa using foldl_insertEntry_sorted es [] h (by simp)

/-- Elementwise decode of an elementwise-encoded list. -/
theorem decList_map {α : Type _} (enc : α → Json) (dec : Json → Except DecodeErr α) :
    ∀ (l : List α), (∀ x ∈ l, dec (enc x) = .ok x) → decList dec (l.map enc) = .ok l
  | [], _ => rfl
  | x :: rest, h => by
    simp only [List.map_cons, decList, h x (List.mem_cons_self x rest),
      decList_map enc dec rest (fun y hy => h y (List.mem_cons_of_mem _ hy))]

/-- Strings decode back from their encodings. -/
theorem decList_str (l : List String) : decList decStr (l.map Json.str) = .ok l :=
  decList_map Json.str decStr l (fun _ _ => rfl)

/-- Valuewise decode of a valuewise-encoded entry list. -/
theorem decEntries_map {α : Type _} (enc : α → Json) (dec : Json → Except DecodeErr α) :
    ∀ (es : List (String × α)), (∀ p ∈ es, dec (enc p.2) = .ok p.2) →
      decEntries dec (es.map (fun p => (p.1, enc p.2))) = .ok es
  | [], _ => rfl
  | p :: rest, h => by
    simp only [List.map_cons, decEntries, h p (List.mem_cons_self p rest),
      decEntries_map enc dec rest (fun q hq => h q (List.mem_cons_of_mem _ hq))]

/-! ### Encode/decode round trips, bottom up -/

theorem uriPath_rt (p : RulesetRuleActionParametersURIPath) :
    RulesetRuleActionParametersURIPath.fromJson p.toJson = .ok p := by
  obtain ⟨e⟩ := p
  by_cases he : e = "" <;>
    simp [RulesetRuleActionParametersURIPath.toJson, RulesetRuleActionParametersURIPath.fromJson,
      omitStr, he, decField, jLookup, decStr, okBind]

theorem uriQuery_rt (q : RulesetRuleActionParametersURIQuery) :
    RulesetRuleActionParametersURIQuery.fromJson q.toJson = .ok q := by
  obtain ⟨v, e⟩ := q
  by_cases hv : v = "" <;> by_cases he : e = "" <;>
    simp [RulesetRuleActionParametersURIQuery.toJson, RulesetRuleActionParametersURIQuery.fromJson,
      omitStr, hv, he, decField, jLookup, decStr, okBind]

theorem uri_rt (u : RulesetRuleActionParametersURI) :
    RulesetRuleActionParametersURI.fromJson u.toJson = .ok u := by
  obtain ⟨p, q, o⟩ := u
  cases o <;>
    simp [RulesetRuleActionParametersURI.toJson, RulesetRuleActionParametersURI.fromJson,
      omitBool, decField, jLookup, decBool, okBind, uriPath_rt, uriQuery_rt]

theorem hdr_rt (h : RulesetRuleActionParametersHTTPHeader) :
    RulesetRuleActionParametersHTTPHeader.fromJson h.toJson = .ok h := by
  obtain ⟨o, v, e⟩ := h
  by_cases ho : o = "" <;> by_cases hv : v = "" <;> by_cases he : e = "" <;>
    simp [RulesetRuleActionParametersHTTPHeader.toJson,
      RulesetRuleActionParametersHTTPHeader.fromJson,
      omitStr, ho, hv, he, decField, jLookup, decStr, okBind]

theorem decAPPtr_obj (fs : List (String × Json)) :
    decActionParametersPtr (.obj fs) =
      match RulesetRuleActionParameters.fromJson (.obj fs) with
      | .error e => .error e
      | .ok p => .ok (some p) := rfl

theorem ap_rt (p : RulesetRuleActionParameters) (hp : p.canonical = true) :
    RulesetRuleActionParameters.fromJson p.toJson = .ok p := by
  obtain ⟨i, rs, inc, u, hd, pr⟩ := p
  simp only [RulesetRuleActionParameters.canonical, Bool.and_eq_true] at hp
  obtain ⟨hhd, hprod⟩ := hp
  have hu : RulesetRuleActionParametersURI.fromJson u.toJson = .ok u := uri_rt u
  cases hd with
  | none =>
    cases pr with
    | none =>
      by_cases hi : i = "" <;> by_cases hrs : rs = "" <;> by_cases hinc : inc = 0 <;>
        simp [RulesetRuleActionParameters.toJson, RulesetRuleActionParameters.fromJson,
          omitStr, omitInt, omitMap, omitSlice, hi, hrs, hinc, decField, jLookup,
          decStr, decInt, hu, okBind]
    | some xs =>
      cases xs with
      | nil => simp at hprod
      | cons x xs =>
        have hx : decList decStr (Json.str x :: List.map Json.str xs) = Except.ok (x :: xs) :=
          decList_str (x :: xs)
        by_cases hi : i = "" <;> by_cases hrs : rs = "" <;> by_cases hinc : inc = 0 <;>
          simp [RulesetRuleActionParameters.toJson, RulesetRuleActionParameters.fromJson,
            omitStr, omitInt, omitMap, omitSlice, hi, hrs, hinc, decField, jLookup,
            decStr, decInt, decSlice, hx, hu, okBind]
  | some es =>
    cases es with
    | nil => simp at hhd
    | cons e es =>
      simp only [List.isEmpty_cons, Bool.not_false, Bool.true_and] at hhd
      have hcanon : mapCanon (e :: es) = e :: es := mapCanon_sorted _ hhd
      have hdm : decEntries RulesetRuleActionParametersHTTPHeader.fromJson
          ((e.1, RulesetRuleActionParametersHTTPHeader.toJson e.2) ::
            List.map (fun q => (q.1, RulesetRuleActionParametersHTTPHeader.toJson q.2)) es) =
          Except.ok (e :: es) :=
        decEntries_map RulesetRuleActionParametersHTTPHeader.toJson
          RulesetRuleActionParametersHTTPHeader.fromJson (e :: es) (fun q _ => hdr_rt q.2)
      cases pr with
      | none =>
        by_cases hi : i = "" <;> by_cases hrs : rs = "" <;> by_cases hinc : inc = 0 <;>
          simp [RulesetRuleActionParameters.toJson, RulesetRuleActionParameters.fromJson,
            omitStr, omitInt, omitMap, omitSlice, hcanon, hi, hrs, hinc, decField, jLookup,
            decStr, decInt, decMap, hdm, hu, okBind]
      | some xs =>
        cases xs with
        | nil => simp at hprod
        | cons x xs =>
          have hx : decList decStr (Json.str x :: List.map Json.str xs) = Except.ok (x :: xs) :=
            decList_str (x :: xs)
          by_cases hi : i = "" <;> by_cases hrs : rs = "" <;> by_cases hinc : inc = 0 <;>
            simp [RulesetRuleActionParameters.toJson, RulesetRuleActionParameters.fromJson,
              omitStr, omitInt, omitMap, omitSlice, hcanon, hi, hrs, hinc, decField, jLookup,
              decStr, decInt, decMap, decSlice, hdm, hx, hu, okBind]

theorem decAPPtr_toJson (p : RulesetRuleActionParameters) (hp : p.canonical = true) :
    decActionParametersPtr p.toJson = .ok (some p) := by
  have h := ap_rt p hp
  simp only [RulesetRuleActionParameters.toJson] at h ⊢
  rw [decAPPtr_obj, h]

set_option maxHeartbeats 1600000 in
theorem rule_rt (r : RulesetRule) (hr : r.canonical = true) :
    RulesetRule.fromJson r.toJson = .ok r := by
  obtain ⟨i, ver, act, ap, ex, d, lu, rf, en, cat, st⟩ := r
  simp only [RulesetRule.canonical, Bool.and_eq_true] at hr
  obtain ⟨hap, hcat⟩ := hr
  cases ap with
  | none =>
    cases cat with
    | none =>
      cases lu <;> by_cases hi : i = "" <;> by_cases hv : ver = "" <;>
        by_cases hrf : rf = "" <;> by_cases hst : st = 0 <;>
        simp [RulesetRule.toJson, RulesetRule.fromJson, omitStr, omitInt, omitTime,
          omitSlice, omitActionParameters, hi, hv, hrf, hst, decField, jLookup,
          decStr, decInt, decBool, decTimePtr, decActionParametersPtr, okBind]
    | some cs =>
      cases cs with
      | nil => simp at hcat
      | cons c cs =>
        have hc : decList decStr (Json.str c :: List.map Json.str cs) = Except.ok (c :: cs) :=
          decList_str (c :: cs)
        cases lu <;> by_cases hi : i = "" <;> by_cases hv : ver = "" <;>
          by_cases hrf : rf = "" <;> by_cases hst : st = 0 <;>
          simp [RulesetRule.toJson, RulesetRule.fromJson, omitStr, omitInt, omitTime,
            omitSlice, omitActionParameters, hi, hv, hrf, hst, decField, jLookup,
            decStr, decInt, decBool, decTimePtr, decActionParametersPtr, decSlice, hc, okBind]
  | some q =>
    have hq : q.canonical = true := by simpa using hap
    have hA : decActionParametersPtr q.toJson = .ok (some q) := decAPPtr_toJson q hq
    cases cat with
    | none =>
      cases lu <;> by_cases hi : i = "" <;> by_cases hv : ver = "" <;>
        by_cases hrf : rf = "" <;> by_cases hst : st = 0 <;>
        simp [RulesetRule.toJson, RulesetRule.fromJson, omitStr, omitInt, omitTime,
          omitSlice, omitActionParameters, hi, hv, hrf, hst, decField, jLookup,
          decStr, decInt, decBool, decTimePtr, hA, okBind]
    | some cs =>
      cases cs with
      | nil => simp at hcat
      | cons c cs =>
        have hc : decList decStr (Json.str c :: List.map Json.str cs) = Except.ok (c :: cs) :=
          decList_str (c :: cs)
        cases lu <;> by_cases hi : i = "" <;> by_cases hv : ver = "" <;>
          by_cases hrf : rf = "" <;> by_cases hst : st = 0 <;>
          simp [RulesetRule.toJson, RulesetRule.fromJson, omitStr, omitInt, omitTime,
            omitSlice, omitActionParameters, hi, hv, hrf, hst, decField, jLookup,
            decStr, decInt, decBool, decTimePtr, decSlice, hA, hc, okBind]

/-! ### The claims -/

/-- C1: for every delete operation (zone- or account-scoped) whose executor
call succeeds, a zero-length response body yields no error, and a non-zero
length body yields an error wrapping the body's text, unconditionally —
the body's content is never inspected or parsed (the response `res` here is
arbitrary, well-formed JSON or not). -/
theorem delete_empty_body_policy (exec : Executor) (id rid : String) (res : HTTPResponse) :
    (exec .delete (rulesetURI ZoneRouteRoot id rid) none = .ok res →
      (res.text.length = 0 → DeleteZoneRuleset exec id rid = none) ∧
      (res.text.length > 0 → DeleteZoneRuleset exec id rid =
        some (.wrap (.base res.text) errMakeRequestError))) ∧
    (exec .delete (rulesetURI AccountRouteRoot id rid) none = .ok res →
      (res.text.length = 0 → DeleteAccountRuleset exec id rid = none) ∧
      (res.text.length > 0 → DeleteAccountRuleset exec id rid =
        some (.wrap (.base res.text) errMakeRequestError))) := by
  constructor <;>
    (intro h
     constructor <;> intro ht <;>
       simp [DeleteZoneRuleset, DeleteAccountRuleset, deleteRuleset, h, ht, Nat.not_lt_of_lt])

/-- C1 witness: a delete answered with an empty body succeeds; one answered
with the body "boom" fails with that text wrapped in the request-error
marker. -/
theorem delete_empty_body_policy_witness :
    DeleteZoneRuleset (constExec (.ok ⟨"", none⟩)) "z1" "r1" = none ∧
    DeleteAccountRuleset (constExec (.ok ⟨"boom", none⟩)) "a1" "r1" =
      some (.wrap (.base "boom") errMakeRequestError) :=
  ⟨((delete_empty_body_policy (constExec (.ok ⟨"", none⟩)) "z1" "r1" ⟨"", none⟩).1 rfl).1 rfl,
   ((delete_empty_body_policy (constExec (.ok ⟨"boom", none⟩)) "a1" "r1" ⟨"boom", none⟩).2
      rfl).2 (by decide)⟩

/-- C2: for every identifier, the path built for list and create
(`rulesetsURI`, used by `listRulesets` and `createRuleset`) is
`/{scope}/{id}/rulesets`, and the path built for get, update and delete
(`rulesetURI`, used by `getRuleset`, `updateRuleset` and `deleteRuleset`)
is `/{scope}/{id}/rulesets/{rulesetId}`, for both the zone scope
("zones") and the account scope ("accounts"). -/
theorem request_paths (id rid : String) :
    rulesetsURI ZoneRouteRoot id = "/zones/" ++ id ++ "/rulesets" ∧
    rulesetsURI AccountRouteRoot id = "/accounts/" ++ id ++ "/rulesets" ∧
    rulesetURI ZoneRouteRoot id rid = "/zones/" ++ id ++ "/rulesets/" ++ rid ∧
    rulesetURI AccountRouteRoot id rid = "/accounts/" ++ id ++ "/rulesets/" ++ rid := by
  refine ⟨?_, ?_, ?_, ?_⟩ <;>
    simp [rulesetsURI, rulesetURI, RouteRoot.segment, ZoneRouteRoot, AccountRouteRoot,
      String.append_assoc]

/-- C3: the update payload is exactly the two-field object
`{description, rules}` — whatever rules are passed, no other field ever
appears in it (in particular none of the other fields a `Ruleset`
carries). -/
theorem update_payload_shape (d : String) (rules : Option (List RulesetRule)) :
    UpdateRulesetRequest.toJson { Description := d, Rules := rules } =
      Json.obj [("description", .str d),
        ("rules", match rules with
                  | none => Json.null
                  | some xs => Json.arr (xs.map RulesetRule.toJson))] ∧
    Json.objKeys (UpdateRulesetRequest.toJson { Description := d, Rules := rules }) =
      ["description", "rules"] := by
  cases rules <;> simp [UpdateRulesetRequest.toJson, sliceField, Json.objKeys]

/-- C5: when the executor call fails, every operation returns the
executor's error value itself — not wrapped, not replaced. -/
theorem transport_error_propagated (exec : Executor) (t : RouteRoot)
    (id rid d : String) (rs : Ruleset) (rules : Option (List RulesetRule)) (e : GoError) :
    (exec .get (rulesetsURI t id) none = .error e → (listRulesets exec t id).2 = some e) ∧
    (exec .get (rulesetURI t id rid) none = .error e → (getRuleset exec t id rid).2 = some e) ∧
    (exec .post (rulesetsURI t id) (some rs.toJson) = .error e →
      (createRuleset exec t id rs).2 = some e) ∧
    (exec .put (rulesetURI t id rid)
        (some (UpdateRulesetRequest.toJson { Description := d, Rules := rules })) = .error e →
      (updateRuleset exec t id rid d rules).2 = some e) ∧
    (exec .delete (rulesetURI t id rid) none = .error e → deleteRuleset exec t id rid = some e) := by
  refine ⟨fun h => ?_, fun h => ?_, fun h => ?_, fun h => ?_, fun h => ?_⟩ <;>
    simp [listRulesets, getRuleset, createRuleset, updateRuleset, deleteRuleset, h]

/-- C5 witness: an executor failing with a fixed error makes each of the
five operations surface exactly that error. -/
theorem transport_error_propagated_witness :
    (listRulesets (constExec (.error (.base "dial tcp: timeout"))) ZoneRouteRoot "z1").2 =
      some (.base "dial tcp: timeout") ∧
    (getRuleset (constExec (.error (.base "dial tcp: timeout"))) ZoneRouteRoot "z1" "r1").2 =
      some (.base "dial tcp: timeout") ∧
    (createRuleset (constExec (.error (.base "dial tcp: timeout"))) AccountRouteRoot "a1"
        sampleRuleset).2 = some (.base "dial tcp: timeout") ∧
    (updateRuleset (constExec (.error (.base "dial tcp: timeout"))) AccountRouteRoot "a1" "r1"
        "d" none).2 = some (.base "dial tcp: timeout") ∧
    deleteRuleset (constExec (.error (.base "dial tcp: timeout"))) ZoneRouteRoot "z1" "r1" =
      some (.base "dial tcp: timeout") := by
  have h := fun t id rid d rs rules =>
    transport_error_propagated (constExec (.error (.base "dial tcp: timeout"))) t id rid d rs
      rules (.base "dial tcp: timeout")
  exact ⟨(h ZoneRouteRoot "z1" "r1" "d" sampleRuleset none).1 rfl,
    (h ZoneRouteRoot "z1" "r1" "d" sampleRuleset none).2.1 rfl,
    (h AccountRouteRoot "a1" "r1" "d" sampleRuleset none).2.2.1 rfl,
    (h AccountRouteRoot "a1" "r1" "d" sampleRuleset none).2.2.2.1 rfl,
    (h ZoneRouteRoot "z1" "r1" "d" sampleRuleset none).2.2.2.2 rfl⟩

/-- C7: each zone-scoped public entry point equals the shared
implementation applied with the zone scope tag, and each account-scoped
entry point equals it applied with the account scope tag. -/
theorem wrappers_delegate (exec : Executor) (id rid d : String) (rs : Ruleset)
    (rules : Option (List RulesetRule)) :
    ListZoneRulesets exec id = listRulesets exec ZoneRouteRoot id ∧
    ListAccountRulesets exec id = listRulesets exec AccountRouteRoot id ∧
    GetZoneRuleset exec id rid = getRuleset exec ZoneRouteRoot id rid ∧
    GetAccountRuleset exec id rid = getRuleset exec AccountRouteRoot id rid ∧
    CreateZoneRuleset exec id rs = createRuleset exec ZoneRouteRoot id rs ∧
    CreateAccountRuleset exec id rs = createRuleset exec AccountRouteRoot id rs ∧
    DeleteZoneRuleset exec id rid = deleteRuleset exec ZoneRouteRoot id rid ∧
    DeleteAccountRuleset exec id rid = deleteRuleset exec AccountRouteRoot id rid ∧
    UpdateZoneRuleset exec id rid d rules = updateRuleset exec ZoneRouteRoot id rid d rules ∧
    UpdateAccountRuleset exec id rid d rules =
      updateRuleset exec AccountRouteRoot id rid d rules :=
  ⟨rfl, rfl, rfl, rfl, rfl, rfl, rfl, rfl, rfl, rfl⟩

/-- C6: when the executor call succeeds but the body does not unmarshal
into the expected envelope, each non-delete operation returns the
unmarshal failure wrapped with the distinguishing marker
`errUnmarshalError`, so it is told apart from a transport failure. -/
theorem unmarshal_error_wrapped (exec : Executor) (t : RouteRoot)
    (id rid d : String) (rs : Ruleset) (rules : Option (List RulesetRule))
    (res : HTTPResponse) (err : GoError) :
    (exec .get (rulesetsURI t id) none = .ok res →
      jsonUnmarshal decodeListRulesetResponse res = .error err →
      listRulesets exec t id = (some [], some (.wrap err errUnmarshalError))) ∧
    (exec .get (rulesetURI t id rid) none = .ok res →
      jsonUnmarshal decodeGetRulesetResponse res = .error err →
      getRuleset exec t id rid = ({}, some (.wrap err errUnmarshalError))) ∧
    (exec .post (rulesetsURI t id) (some rs.toJson) = .ok res →
      jsonUnmarshal decodeCreateRulesetResponse res = .error err →
      createRuleset exec t id rs = ({}, some (.wrap err errUnmarshalError))) ∧
    (exec .put (rulesetURI t id rid)
        (some (UpdateRulesetRequest.toJson { Description := d, Rules := rules })) = .ok res →
      jsonUnmarshal decodeUpdateRulesetResponse res = .error err →
      updateRuleset exec t id rid d rules = ({}, some (.wrap err errUnmarshalError))) := by
  refine ⟨fun h1 h2 => ?_, fun h1 h2 => ?_, fun h1 h2 => ?_, fun h1 h2 => ?_⟩ <;>
    simp [listRulesets, getRuleset, createRuleset, updateRuleset, h1, h2]

/-- C6 witness: a body that is not well-formed JSON makes each non-delete
operation fail with the wrapped unmarshal marker. -/
theorem unmarshal_error_wrapped_witness :
    listRulesets (constExec (.ok ⟨"<html>", none⟩)) ZoneRouteRoot "z1" =
      (some [], some (.wrap (.decode .malformed) errUnmarshalError)) ∧
    getRuleset (constExec (.ok ⟨"<html>", none⟩)) ZoneRouteRoot "z1" "r1" =
      ({}, some (.wrap (.decode .malformed) errUnmarshalError)) ∧
    createRuleset (constExec (.ok ⟨"<html>", none⟩)) AccountRouteRoot "a1" sampleRuleset =
      ({}, some (.wrap (.decode .malformed) errUnmarshalError)) ∧
    updateRuleset (constExec (.ok ⟨"<html>", none⟩)) AccountRouteRoot "a1" "r1" "d" none =
      ({}, some (.wrap (.decode .malformed) errUnmarshalError)) := by
  have h := fun t id rid d rs rules =>
    unmarshal_error_wrapped (constExec (.ok ⟨"<html>", none⟩)) t id rid d rs rules
      ⟨"<html>", none⟩ (.decode .malformed)
  exact ⟨(h ZoneRouteRoot "z1" "r1" "d" sampleRuleset none).1 rfl rfl,
    (h ZoneRouteRoot "z1" "r1" "d" sampleRuleset none).2.1 rfl rfl,
    (h AccountRouteRoot "a1" "r1" "d" sampleRuleset none).2.2.1 rfl rfl,
    (h AccountRouteRoot "a1" "r1" "d" sampleRuleset none).2.2.2 rfl rfl⟩

/-- C8: the create request body is the JSON encoding of the full ruleset
argument, and on success every non-delete operation returns exactly the
decoded envelope's `result` field (the ruleset for get/create/update, the
ruleset list for list): were a different body or path used, the
conclusion could not follow from the stated executor hypothesis alone. -/
theorem create_body_and_result_extraction (exec : Executor) (t : RouteRoot)
    (id rid d : String) (rs v : Ruleset) (vs : Option (List Ruleset))
    (rules : Option (List RulesetRule)) (res : HTTPResponse) :
    (exec .post (rulesetsURI t id) (some (Ruleset.toJson rs)) = .ok res →
      jsonUnmarshal decodeCreateRulesetResponse res = .ok v →
      createRuleset exec t id rs = (v, none)) ∧
    (exec .get (rulesetsURI t id) none = .ok res →
      jsonUnmarshal decodeListRulesetResponse res = .ok vs →
      listRulesets exec t id = (vs, none)) ∧
    (exec .get (rulesetURI t id rid) none = .ok res →
      jsonUnmarshal decodeGetRulesetResponse res = .ok v →
      getRuleset exec t id rid = (v, none)) ∧
    (exec .put (rulesetURI t id rid)
        (some (UpdateRulesetRequest.toJson { Description := d, Rules := rules })) = .ok res →
      jsonUnmarshal decodeUpdateRulesetResponse res = .ok v →
      updateRuleset exec t id rid d rules = (v, none)) := by
  refine ⟨fun h1 h2 => ?_, fun h1 h2 => ?_, fun h1 h2 => ?_, fun h1 h2 => ?_⟩ <;>
    simp [createRuleset, listRulesets, getRuleset, updateRuleset, h1, h2]

/-- C8 witness: a create answered with an envelope carrying a `result`
ruleset returns that ruleset; a list answered with a one-element `result`
array returns it in order. -/
theorem create_body_and_result_extraction_witness :
    createRuleset
      (constExec (.ok ⟨"{...}", some (.obj [("success", .bool true),
        ("result", .obj [("name", .str "created"), ("kind", .str "custom")])])⟩))
      ZoneRouteRoot "z1" sampleRuleset =
      ({ Name := "created", Kind := "custom" }, none) ∧
    listRulesets
      (constExec (.ok ⟨"{...}", some (.obj
        [("result", .arr [.obj [("name", .str "first")]])])⟩))
      ZoneRouteRoot "z1" = (some [{ Name := "first" }], none) := by
  constructor
  · exact (create_body_and_result_extraction _ ZoneRouteRoot "z1" "r1" "d"
      sampleRuleset { Name := "created", Kind := "custom" } none none
      ⟨"{...}", some (.obj [("success", .bool true),
        ("result", .obj [("name", .str "created"), ("kind", .str "custom")])])⟩).1 rfl (by rfl)
  · exact (create_body_and_result_extraction _ ZoneRouteRoot "z1" "r1" "d"
      sampleRuleset { Name := "created", Kind := "custom" } (some [{ Name := "first" }]) none
      ⟨"{...}", some (.obj [("result", .arr [.obj [("name", .str "first")]])])⟩).2.1
      rfl (by rfl)

/-- C9: whenever an operation returns a non-nil error — on the transport
path or on the unmarshal path — the accompanying value is the zero one:
the empty slice for list, the zero ruleset for get, create and update. -/
theorem error_accompanied_by_zero_value (exec : Executor) (t : RouteRoot)
    (id rid d : String) (rs : Ruleset) (rules : Option (List RulesetRule)) :
    ((listRulesets exec t id).2.isSome = true → (listRulesets exec t id).1 = some []) ∧
    ((getRuleset exec t id rid).2.isSome = true → (getRuleset exec t id rid).1 = {}) ∧
    ((createRuleset exec t id rs).2.isSome = true → (createRuleset exec t id rs).1 = {}) ∧
    ((updateRuleset exec t id rid d rules).2.isSome = true →
      (updateRuleset exec t id rid d rules).1 = {}) := by
  refine ⟨fun h => ?_, fun h => ?_, fun h => ?_, fun h => ?_⟩
  · rcases hE : exec .get (rulesetsURI t id) none with e | res
    · simp [listRulesets, hE]
    · rcases hU : jsonUnmarshal decodeListRulesetResponse res with e | v
      · simp [listRulesets, hE, hU]
      · exfalso; simp [listRulesets, hE, hU] at h
  · rcases hE : exec .get (rulesetURI t id rid) none with e | res
    · simp [getRuleset, hE]
    · rcases hU : jsonUnmarshal decodeGetRulesetResponse res with e | v
      · simp [getRuleset, hE, hU]
      · exfalso; simp [getRuleset, hE, hU] at h
  · rcases hE : exec .post (rulesetsURI t id) (some rs.toJson) with e | res
    · simp [createRuleset, hE]
    · rcases hU : jsonUnmarshal decodeCreateRulesetResponse res with e | v
      · simp [createRuleset, hE, hU]
      · exfalso; simp [createRuleset, hE, hU] at h
  · rcases hE : exec .put (rulesetURI t id rid)
        (some (UpdateRulesetRequest.toJson { Description := d, Rules := rules })) with e | res
    · simp [updateRuleset, hE]
    · rcases hU : jsonUnmarshal decodeUpdateRulesetResponse res with e | v
      · simp [updateRuleset, hE, hU]
      · exfalso; simp [updateRuleset, hE, hU] at h

/-- C9 witness: with a failing transport, list yields the empty slice and
get the zero ruleset, each beside the error. -/
theorem error_accompanied_by_zero_value_witness :
    (listRulesets (constExec (.error (.base "boom"))) ZoneRouteRoot "z1").1 = some [] ∧
    (getRuleset (constExec (.error (.base "boom"))) AccountRouteRoot "a1" "r1").1 = {} :=
  ⟨(error_accompanied_by_zero_value (constExec (.error (.base "boom"))) ZoneRouteRoot
      "z1" "r1" "d" sampleRuleset none).1 rfl,
   (error_accompanied_by_zero_value (constExec (.error (.base "boom"))) AccountRouteRoot
      "a1" "r1" "d" sampleRuleset none).2.1 rfl⟩

/-- C10: a well-formed envelope without a `result` field — the body "{}"
in particular, or one with arbitrary unknown fields — decodes
successfully to the zero result (nil sequence for list, zero ruleset for
get/create/update) rather than erroring, and a present well-typed
`result` among unknown fields is still extracted; through the full
operations, a "{}" body yields success with the zero result. -/
theorem lenient_envelope_decode (exec : Executor) (t : RouteRoot)
    (id rid d : String) (rs w : Ruleset) (rules : Option (List RulesetRule))
    (fs : List (String × Json)) (j : Json) :
    decodeListRulesetResponse (.obj []) = .ok none ∧
    decodeGetRulesetResponse (.obj []) = .ok {} ∧
    decodeCreateRulesetResponse (.obj []) = .ok {} ∧
    decodeUpdateRulesetResponse (.obj []) = .ok {} ∧
    (jLookup fs "result" = none → decodeListRulesetResponse (.obj fs) = .ok none) ∧
    (jLookup fs "result" = none → decodeGetRulesetResponse (.obj fs) = .ok {}) ∧
    (jLookup fs "result" = none → decodeCreateRulesetResponse (.obj fs) = .ok {}) ∧
    (jLookup fs "result" = none → decodeUpdateRulesetResponse (.obj fs) = .ok {}) ∧
    (jLookup fs "result" = some j → Ruleset.fromJson j = .ok w →
      decodeGetRulesetResponse (.obj fs) = .ok w) ∧
    (exec .get (rulesetsURI t id) none = .ok ⟨"{}", some (.obj [])⟩ →
      listRulesets exec t id = (none, none)) ∧
    (exec .get (rulesetURI t id rid) none = .ok ⟨"{}", some (.obj [])⟩ →
      getRuleset exec t id rid = ({}, none)) ∧
    (exec .post (rulesetsURI t id) (some rs.toJson) = .ok ⟨"{}", some (.obj [])⟩ →
      createRuleset exec t id rs = ({}, none)) ∧
    (exec .put (rulesetURI t id rid)
        (some (UpdateRulesetRequest.toJson { Description := d, Rules := rules })) =
          .ok ⟨"{}", some (.obj [])⟩ →
      updateRuleset exec t id rid d rules = ({}, none)) := by
  refine ⟨rfl, rfl, rfl, rfl, fun h => ?_, fun h => ?_, fun h => ?_, fun h => ?_,
    fun h1 h2 => ?_, fun h => ?_, fun h => ?_, fun h => ?_, fun h => ?_⟩ <;>
    simp [decodeListRulesetResponse, decodeGetRulesetResponse, decodeCreateRulesetResponse,
      decodeUpdateRulesetResponse, decField, jLookup, listRulesets, getRuleset, createRuleset,
      updateRuleset, jsonUnmarshal, *]

/-- C10 witness: the envelope `{"success": true}` has no `result` field
and decodes to the zero values; operations fed the body "{}" succeed with
the zero result. -/
theorem lenient_envelope_decode_witness :
    decodeListRulesetResponse (.obj [("success", .bool true)]) = .ok none ∧
    decodeGetRulesetResponse (.obj [("success", .bool true)]) = .ok {} ∧
    decodeGetRulesetResponse (.obj [("success", .bool true),
      ("result", .obj [("name", .str "n")])]) = .ok { Name := "n" } ∧
    listRulesets (constExec (.ok ⟨"{}", some (.obj [])⟩)) ZoneRouteRoot "z1" = (none, none) ∧
    getRuleset (constExec (.ok ⟨"{}", some (.obj [])⟩)) ZoneRouteRoot "z1" "r1" =
      ({}, none) := by
  have h := fun (exec : Executor) t id rid =>
    lenient_envelope_decode exec t id rid "d" sampleRuleset { Name := "n" } none
      [("success", .bool true)] (.obj [("name", .str "n")])
  have h2 := fun (exec : Executor) t id rid =>
    lenient_envelope_decode exec t id rid "d" sampleRuleset { Name := "n" } none
      [("success", .bool true), ("result", .obj [("name", .str "n")])]
      (.obj [("name", .str "n")])
  refine ⟨(h (constExec (.ok ⟨"{}", some (.obj [])⟩)) ZoneRouteRoot "z1" "r1").2.2.2.2.1 rfl,
    (h (constExec (.ok ⟨"{}", some (.obj [])⟩)) ZoneRouteRoot "z1" "r1").2.2.2.2.2.1 rfl,
    (h2 (constExec (.ok ⟨"{}", some (.obj [])⟩)) ZoneRouteRoot "z1"
      "r1").2.2.2.2.2.2.2.2.1 rfl (by rfl),
    (h (constExec (.ok ⟨"{}", some (.obj [])⟩)) ZoneRouteRoot "z1"
      "r1").2.2.2.2.2.2.2.2.2.1 rfl,
    (h (constExec (.ok ⟨"{}", some (.obj [])⟩)) ZoneRouteRoot "z1"
      "r1").2.2.2.2.2.2.2.2.2.2.1 rfl⟩

/-- C4 counterexample: the round trip is not the identity on every
ruleset.  `emptyCategoriesRuleset` carries a rule with a present-but-empty
`Categories` slice; `omitempty` elides it on encode, so it decodes back as
an absent (nil) slice and the decoded ruleset differs from the original in
that field. -/
theorem ruleset_json_roundtrip_counterexample :
    Ruleset.fromJson emptyCategoriesRuleset.toJson =
      .ok { Name := "n", Rules := some [{ Action := "block" }] } ∧
    ({ Name := "n", Rules := some [{ Action := "block" }] } : Ruleset) ≠
      emptyCategoriesRuleset := by
  exact ⟨by rfl, by decide⟩

/-- C4 (amended): encoding a Ruleset to JSON and decoding it back yields
the original for every ruleset in canonical wire form — none of its
`omitempty` collections (categories, headers, products) present but
empty, and header maps listed in strictly increasing key order (the
key-sorted entry list is the canonical representative of the unordered Go
map). -/
theorem ruleset_json_roundtrip (r : Ruleset) (h : r.canonical = true) :
    Ruleset.fromJson r.toJson = .ok r := by
  obtain ⟨i, n, d, k, v, lu, ph, rls⟩ := r
  simp only [Ruleset.canonical] at h
  cases rls with
  | none =>
    cases lu <;> by_cases hi : i = "" <;> by_cases hv : v = "" <;>
      simp [Ruleset.toJson, Ruleset.fromJson, omitStr, omitTime, sliceField, hi, hv,
        decField, jLookup, decStr, decTimePtr, decSlice, okBind]
  | some l =>
    have hL : decList RulesetRule.fromJson (List.map RulesetRule.toJson l) = Except.ok l :=
      decList_map RulesetRule.toJson RulesetRule.fromJson l
        (fun x hx => rule_rt x (by
          have hall := List.all_eq_true.mp h x hx
          simpa using hall))
    cases lu <;> by_cases hi : i = "" <;> by_cases hv : v = "" <;>
      simp [Ruleset.toJson, Ruleset.fromJson, omitStr, omitTime, sliceField, hi, hv,
        decField, jLookup, decStr, decTimePtr, decSlice, hL, okBind]

/-- C4 witness: `sampleRuleset`, which populates every optional field
(headers, products, categories, timestamps, action parameters), is
canonical and round-trips to itself. -/
theorem ruleset_json_roundtrip_witness :
    sampleRuleset.canonical = true ∧
    Ruleset.fromJson sampleRuleset.toJson = .ok sampleRuleset :=
  ⟨by decide, ruleset_json_roundtrip sampleRuleset (by decide)⟩
